import Mathlib

/-!
Verification of the RustEngine frame-lifecycle engine.

This file gives a shallow embedding of the core of the repository:

* `create_swapchain` embeds `VulkanWindow::create_swapchain`
  (src/engine/src/vulkan/vulkan_window.rs) and the identical swapchain
  construction in `VulkanToolset::new` (src/engine/src/vulkan/vulkan.rs).
* `create_logical_device` embeds `VulkanToolset::create_logical_device`
  (src/engine/src/vulkan/vulkan.rs).
* `create_command_buffers` embeds `VulkanToolset::create_command_buffers`
  (src/engine/src/vulkan/vulkan.rs).
* `create_graphics_pipeline` embeds `VulkanToolset::create_graphics_pipeline`
  (src/engine/src/vulkan/vulkan.rs); note that it bakes `self.viewport`, the
  toolset field set once at startup, into the pipeline.
* `frameStep` / `runLoop` embed the `MainEventsCleared` branch of the event
  loop in `window_test` (src/engine/src/tests/window_test.rs): the
  recreate-on-resize/staleness phase, image acquisition, the per-image fence
  wait, submission, presentation and fence-slot bookkeeping.

GPU handles are modelled by generation counters (each rebuild yields a fresh
generation), fences by the number of the loop iteration whose flush produced
them, and the environment (acquisition results, flush results, drawable
sizes reported by the windowing layer) by explicit per-iteration inputs.
Paths on which the Rust code panics (`.expect`, `.unwrap`, `panic!` calls
and out-of-bounds `Vec` indexing) are modelled by `Option.none`.
-/

namespace RustEngine

/-! ### Swapchain creation, from `VulkanWindow::create_swapchain` -/

/-- Surface capabilities as queried from the physical device.  Composite
alpha modes and surface formats are opaque, identified by numbers; supported
modes are listed in the driver's enumeration order. -/
structure SurfaceCapabilities where
  min_image_count : Nat
  max_image_count : Option Nat
  supported_composite_alpha : List Nat
  deriving DecidableEq

/-- The `SwapchainCreateInfo` assembled by `create_swapchain`. -/
structure SwapchainInfo where
  min_image_count : Nat
  image_format : Nat
  image_extent : Nat × Nat
  image_usage_color_attachment : Bool
  composite_alpha : Nat
  deriving DecidableEq

/-- Embedding of `VulkanWindow::create_swapchain`
(src/engine/src/vulkan/vulkan_window.rs, lines 44-67), identical to the
swapchain construction in `VulkanToolset::new` (vulkan.rs lines 52-74):
query the capabilities (`.expect` = `none` on failure), take the first
supported composite-alpha mode and the first supported surface format
(`.unwrap` on the iterators = `none` when empty), take the extent from the
window's current inner size, request `min_image_count + 1` images and
color-attachment usage. -/
def create_swapchain (caps : Option SurfaceCapabilities) (surface_formats : List Nat)
    (dimensions : Nat × Nat) : Option SwapchainInfo :=
  match caps with
  | none => none
  | some caps =>
    match caps.supported_composite_alpha.head?, surface_formats.head? with
    | some composite_alpha, some image_format =>
        some { min_image_count := caps.min_image_count + 1
               image_format := image_format
               image_extent := dimensions
               image_usage_color_attachment := true
               composite_alpha := composite_alpha }
    | some _, none => none
    | none, _ => none

/-! ### Device selection, from `VulkanToolset::create_logical_device` -/

/-- The device kinds distinguished by the selection ranking. -/
inductive PhysicalDeviceType where
  | DiscreteGpu
  | IntegratedGpu
  | VirtualGpu
  | Cpu
  | Other
  deriving DecidableEq

/-- The ranking used as the `min_by_key` key in
`VulkanToolset::create_logical_device` (vulkan.rs lines 255-261). -/
def device_type_rank : PhysicalDeviceType → Nat
  | PhysicalDeviceType.DiscreteGpu => 0
  | PhysicalDeviceType.IntegratedGpu => 1
  | PhysicalDeviceType.VirtualGpu => 2
  | PhysicalDeviceType.Cpu => 3
  | PhysicalDeviceType.Other => 4

/-- A queue family: whether its flags contain GRAPHICS, and the value of
`surface_support(i, surface).unwrap_or(false)`. -/
structure QueueFamily where
  graphics : Bool
  surface_support : Bool
  deriving DecidableEq

/-- A physical device as seen by the selection code: whether its supported
extensions contain `khr_swapchain`, its queue families in enumeration
order, and its device type. -/
structure PhysicalDevice where
  supports_swapchain_extension : Bool
  queue_families : List QueueFamily
  device_type : PhysicalDeviceType
  deriving DecidableEq

/-- Embedding of Rust's `Iterator::position`: index of the first element
satisfying the predicate. -/
def position (p : α → Bool) : List α → Option Nat
  | [] => none
  | a :: l => if p a then some 0 else (position p l).map (· + 1)

/-- The queue-family predicate of the selection: GRAPHICS flag set and
presentation to the bound surface supported. -/
def queue_family_ok (q : QueueFamily) : Bool :=
  q.graphics && q.surface_support

/-- One step of the candidate construction: a supported-extension check and
then `position` over the queue families, as in the `filter`/`filter_map`
chain of `create_logical_device`. -/
def candidate_of (p : PhysicalDevice) : Option (PhysicalDevice × Nat) :=
  if p.supports_swapchain_extension then
    (position queue_family_ok p.queue_families).map (fun i => (p, i))
  else none

/-- The fold implementing `Iterator::min_by_key` (first minimum wins, which
is what a strict comparison in the accumulator gives). -/
def pickMin (best y : PhysicalDevice × Nat) : PhysicalDevice × Nat :=
  if device_type_rank y.1.device_type < device_type_rank best.1.device_type then y else best

/-- Embedding of `min_by_key`, returning the first element of minimal rank. -/
def min_by_rank : List (PhysicalDevice × Nat) → Option (PhysicalDevice × Nat)
  | [] => none
  | x :: xs => some (xs.foldl pickMin x)

/-- Embedding of `VulkanToolset::create_logical_device`
(vulkan.rs lines 236-261): filter devices supporting the swapchain
extension, find in each the first queue family supporting graphics and
presentation, and take the candidate with the best device-type rank.
`none` models the `.expect("no devices available")` panic. -/
def create_logical_device (devices : List PhysicalDevice) : Option (PhysicalDevice × Nat) :=
  min_by_rank (devices.filterMap candidate_of)

/-! ### Command recording, from `VulkanToolset::create_command_buffers` -/

/-- A vertex as declared by `VulkanVertex`: one 2-component position. -/
structure Vertex where
  position : Rat × Rat
  deriving DecidableEq

/-- The buffer usage flag passed to `AutoCommandBufferBuilder::primary`. -/
inductive CommandBufferUsage where
  | MultipleSubmit
  | OneTimeSubmit
  | SimultaneousUse
  deriving DecidableEq

/-- The commands recorded into a command buffer. -/
inductive Command where
  | beginRenderPass (framebuffer : Nat) (clear_values : List (Rat × Rat × Rat × Rat))
      (inline_contents : Bool)
  | bindPipelineGraphics (pipeline : Nat)
  | bindVertexBuffers (binding : Nat) (vbo : List Vertex)
  | draw (vertex_count instance_count first_vertex first_instance : Nat)
  | endRenderPass
  deriving DecidableEq

/-- A recorded primary command buffer. -/
structure CommandBuffer where
  usage : CommandBufferUsage
  commands : List Command
  deriving DecidableEq

/-- The clear value recorded by `create_command_buffers`:
`[0.1, 0.1, 0.1, 1.0]`. -/
def darkGrayClear : Rat × Rat × Rat × Rat :=
  (0.1, 0.1, 0.1, 1.0)

/-- Embedding of `VulkanToolset::create_command_buffers`
(vulkan.rs lines 187-219): one primary command buffer per framebuffer with
usage `MultipleSubmit`, recording begin-render-pass with the single
dark-gray clear value and inline contents, bind the graphics pipeline,
bind the vertex buffer at binding 0, draw all vertices as one instance,
end render pass.  Framebuffers and the pipeline are identified by their
generation numbers. -/
def create_command_buffers (vbo : List Vertex) (pipeline : Nat)
    (framebuffers : List Nat) : List CommandBuffer :=
  framebuffers.map fun framebuffer =>
    { usage := CommandBufferUsage.MultipleSubmit
      commands := [
        Command.beginRenderPass framebuffer [darkGrayClear] true,
        Command.bindPipelineGraphics pipeline,
        Command.bindVertexBuffers 0 vbo,
        Command.draw vbo.length 1 0 0,
        Command.endRenderPass] }

/-! ### The frame loop, from `window_test` (src/engine/src/tests/window_test.rs)

The loop state mirrors the mutable variables captured by the event-loop
closure.  Handle-valued variables (`swapchain`, the framebuffers, the
pipeline, `command_buffer`) are modelled by generation counters: each
rebuild produces the next generation, so comparing generations states
which concrete object a consumer refers to. -/

/-- A graphics pipeline handle: its generation and the viewport baked into
it at creation. -/
structure GraphicsPipeline where
  id : Nat
  baked_viewport : Nat × Nat
  deriving DecidableEq

/-- Embedding of `VulkanToolset::create_graphics_pipeline`
(vulkan.rs lines 142-185).  The function takes only the two shader modules;
the viewport it bakes into the pipeline is `self.viewport`, the toolset
field initialised from the window size in `VulkanToolset::new` and never
written afterwards (the toolset is captured immutably by the event loop). -/
def create_graphics_pipeline (toolset_viewport : Nat × Nat) (fresh_id : Nat) :
    GraphicsPipeline :=
  { id := fresh_id, baked_viewport := toolset_viewport }

/-- Startup data fixed before the loop runs: the window's inner size when
the toolset was created (this is both the initial value of the loop's
local `viewport` variable and the toolset's immutable `viewport` field),
and the number of swapchain images observed at startup (`images.len()`,
which under the spec's image-count invariant is a function of the creation
info that recreation carries forward unchanged). -/
structure EngineConfig where
  startup_extent : Nat × Nat
  image_count : Nat
  deriving DecidableEq

/-- The mutable state of the event-loop closure in `window_test`. -/
structure LoopState where
  window_resized : Bool
  recreate_swapchain : Bool
  /-- The local `viewport` variable of `window_test`. -/
  viewport_extent : Nat × Nat
  swapchain_extent : Nat × Nat
  swapchain_id : Nat
  /-- Generation of the most recently created framebuffers. -/
  framebuffers_id : Nat
  pipeline : GraphicsPipeline
  /-- Pipeline generation the current `command_buffer` vector binds. -/
  cmd_pipeline_id : Nat
  /-- Framebuffer generation the current `command_buffer` vector renders into. -/
  cmd_framebuffers_id : Nat
  /-- Length of the current `command_buffer` vector. -/
  cmd_count : Nat
  /-- The `fences` vector: slot i holds the number of the loop iteration
  whose flush produced the fence, or `none` for an empty slot. -/
  fences : List (Option Nat)
  previous_fence_i : Nat
  /-- Number of `MainEventsCleared` iterations already executed. -/
  frame : Nat
  deriving DecidableEq

/-- The state just before `event_loop.run`: flags clear, swapchain,
framebuffers, pipeline and command buffers at generation 0, all fence
slots empty, `previous_fence_i = 0`. -/
def initState (cfg : EngineConfig) : LoopState :=
  { window_resized := false
    recreate_swapchain := false
    viewport_extent := cfg.startup_extent
    swapchain_extent := cfg.startup_extent
    swapchain_id := 0
    framebuffers_id := 0
    pipeline := create_graphics_pipeline cfg.startup_extent 0
    cmd_pipeline_id := 0
    cmd_framebuffers_id := 0
    cmd_count := cfg.image_count
    fences := List.replicate cfg.image_count none
    previous_fence_i := 0
    frame := 0 }

/-- Handling of the `WindowEvent::Resized` arm: only the flag is set;
all rebuilding is deferred to the next `MainEventsCleared` iteration. -/
def handleResized (s : LoopState) : LoopState :=
  { s with window_resized := true }

/-- Result of `swapchain::acquire_next_image`, as matched by the loop:
out-of-date (recoverable), success with the image index and the
suboptimal flag, or any other error (a `panic!`). -/
inductive AcquireResult where
  | outOfDate
  | success (image_index : Nat) (suboptimal : Bool)
  | otherError
  deriving DecidableEq

/-- Result of `then_signal_fence_and_flush` for the submit/present chain. -/
inductive FlushResult where
  | signaled
  | outOfDate
  | otherError
  deriving DecidableEq

/-- The environment's responses consumed by one loop iteration: the
drawable size the window reports if a recreation happens, the acquisition
result, and the flush result of the submission chain. -/
structure FrameInput where
  new_dimensions : Nat × Nat
  acquire : AcquireResult
  flush : FlushResult
  deriving DecidableEq

/-- Observable actions of one loop iteration, in program order. -/
inductive Action where
  | recreateSwapchain (extent : Nat × Nat)
  | createFramebuffers (fb_id : Nat)
  | createPipeline (baked_viewport : Nat × Nat) (pipe_id : Nat)
  | createCommandBuffers (pipe_id : Nat) (fb_id : Nat)
  | acquireImage (image_index : Nat)
  | fenceWait (slot : Nat) (fence : Nat)
  | submit (image_index : Nat) (cmd_pipeline : Nat) (cmd_framebuffers : Nat)
  | present (image_index : Nat)
  | storeFence (slot : Nat) (fence : Nat)
  | clearSlot (slot : Nat)
  | logError
  deriving DecidableEq

/-- Actions emitted by the recreation phase, as opposed to the
acquire/submit/present phase. -/
def isSetupAction : Action → Bool
  | Action.recreateSwapchain _ => true
  | Action.createFramebuffers _ => true
  | Action.createPipeline _ _ => true
  | Action.createCommandBuffers _ _ => true
  | _ => false

/-- Step 1 of the loop iteration (window_test.rs lines 129-155): if
`window_resized || recreate_swapchain`, clear `recreate_swapchain`,
recreate the swapchain at the current drawable size and build new
framebuffers; if additionally `window_resized`, clear it, set the local
viewport to the new size, rebuild the pipeline (via
`create_graphics_pipeline`, which bakes the toolset's startup viewport)
and rebuild the command buffers against the new pipeline and the new
framebuffers.  On a staleness-only pass the new framebuffers are built
but the command buffers are left as they are. -/
def recreateStep (cfg : EngineConfig) (s : LoopState) (new_dims : Nat × Nat) :
    LoopState × List Action :=
  if s.window_resized then
    ({ s with recreate_swapchain := false
              swapchain_extent := new_dims
              swapchain_id := s.swapchain_id + 1
              framebuffers_id := s.framebuffers_id + 1
              window_resized := false
              viewport_extent := new_dims
              pipeline := create_graphics_pipeline cfg.startup_extent (s.pipeline.id + 1)
              cmd_pipeline_id := s.pipeline.id + 1
              cmd_framebuffers_id := s.framebuffers_id + 1
              cmd_count := cfg.image_count },
     [Action.recreateSwapchain new_dims,
      Action.createFramebuffers (s.framebuffers_id + 1),
      Action.createPipeline
        (create_graphics_pipeline cfg.startup_extent (s.pipeline.id + 1)).baked_viewport
        (s.pipeline.id + 1),
      Action.createCommandBuffers (s.pipeline.id + 1) (s.framebuffers_id + 1)])
  else if s.recreate_swapchain then
    ({ s with recreate_swapchain := false
              swapchain_extent := new_dims
              swapchain_id := s.swapchain_id + 1
              framebuffers_id := s.framebuffers_id + 1 },
     [Action.recreateSwapchain new_dims,
      Action.createFramebuffers (s.framebuffers_id + 1)])
  else (s, [])

/-- The `if suboptimal` arm after a successful acquisition. -/
def markStale (suboptimal : Bool) (s : LoopState) : LoopState :=
  if suboptimal then { s with recreate_swapchain := true } else s

/-- Steps 5-7 after the submit/present chain was issued
(window_test.rs lines 201-213): on a signaled flush store the new fence in
the acquired slot; on an out-of-date report set `recreate_swapchain` and
leave the slot empty; on any other error log it and leave the slot empty.
In every case record the acquired index as `previous_fence_i` and continue. -/
def submitOutcome (s : LoopState) (image_i : Nat) (acts : List Action)
    (flush : FlushResult) : LoopState × List Action :=
  match flush with
  | FlushResult.signaled =>
      ({ s with fences := s.fences.set image_i (some s.frame)
                previous_fence_i := image_i
                frame := s.frame + 1 },
       acts ++ [Action.storeFence image_i s.frame])
  | FlushResult.outOfDate =>
      ({ s with recreate_swapchain := true
                fences := s.fences.set image_i none
                previous_fence_i := image_i
                frame := s.frame + 1 },
       acts ++ [Action.clearSlot image_i])
  | FlushResult.otherError =>
      ({ s with fences := s.fences.set image_i none
                previous_fence_i := image_i
                frame := s.frame + 1 },
       acts ++ [Action.logError, Action.clearSlot image_i])

/-- Steps 3-7 for a successfully acquired image
(window_test.rs lines 173-213): the fence stored in the acquired image's
slot (if any) is waited on, the previous slot is read for the
wait-dependency, and the prebuilt command buffer for the acquired index
is submitted and the image presented, followed by `submitOutcome`.
`Vec` indexing out of bounds (`fences[image_i]`,
`fences[previous_fence_i]`, `command_buffer[image_i]`) panics, modelled
by `none`. -/
def submitFrame (s1 : LoopState) (setup : List Action) (image_i : Nat)
    (flush : FlushResult) : Option (LoopState × List Action) :=
  if image_i < s1.fences.length ∧ s1.previous_fence_i < s1.fences.length ∧
      image_i < s1.cmd_count then
    some (submitOutcome s1 image_i
      (setup ++ Action.acquireImage image_i ::
        ((match s1.fences.getD image_i none with
          | some fence => [Action.fenceWait image_i fence]
          | none => []) ++
         [Action.submit image_i s1.cmd_pipeline_id s1.cmd_framebuffers_id,
          Action.present image_i]))
      flush)
  else none

/-- Step 2 dispatch on the acquisition result
(window_test.rs lines 157-171): an out-of-date acquisition sets
`recreate_swapchain` and returns early (no submission, no present, no
fence write); any other acquisition error panics (`none`); on success the
suboptimal flag may set `recreate_swapchain` before the frame is
submitted via `submitFrame`. -/
def afterAcquire (s : LoopState) (setup : List Action) (acq : AcquireResult)
    (flush : FlushResult) : Option (LoopState × List Action) :=
  match acq with
  | AcquireResult.otherError => none
  | AcquireResult.outOfDate =>
      some ({ s with recreate_swapchain := true, frame := s.frame + 1 }, setup)
  | AcquireResult.success image_i suboptimal =>
      submitFrame (markStale suboptimal s) setup image_i flush

/-- One `MainEventsCleared` iteration of the event loop
(window_test.rs lines 128-214). -/
def frameStep (cfg : EngineConfig) (s : LoopState) (inp : FrameInput) :
    Option (LoopState × List Action) :=
  let sa := recreateStep cfg s inp.new_dimensions
  afterAcquire sa.1 sa.2 inp.acquire inp.flush

/-- The record kept of one executed iteration: the state it started from,
the environment input it consumed, and the actions it performed. -/
structure IterRecord where
  pre : LoopState
  input : FrameInput
  actions : List Action
  deriving DecidableEq

/-- Run of the loop over a list of per-iteration inputs, accumulating one
record per iteration; `none` if some iteration panics. -/
def runAux (cfg : EngineConfig) (s : LoopState) (acc : List IterRecord) :
    List FrameInput → Option (LoopState × List IterRecord)
  | [] => some (s, acc)
  | inp :: rest =>
    match frameStep cfg s inp with
    | none => none
    | some (s', acts) => runAux cfg s' (acc ++ [⟨s, inp, acts⟩]) rest

/-- Run the event loop from the initial state. -/
def runLoop (cfg : EngineConfig) (inputs : List FrameInput) :
    Option (LoopState × List IterRecord) :=
  runAux cfg (initState cfg) [] inputs

/-! ### Specification predicates over the loop model -/

/-- The trace `acts` performs a wait on fence `fence` stored in slot
`slot` strictly before it performs any submission: the wait occurs, and no
submit action precedes it. -/
def waitsBeforeSubmit (slot fence : Nat) (acts : List Action) : Prop :=
  ∃ pre post, acts = pre ++ Action.fenceWait slot fence :: post ∧
    ∀ a ∈ pre, ∀ j pg fg, a ≠ Action.submit j pg fg

/-- Invariant tying a loop state to the records of the iterations that
produced it: the frame counter equals the number of executed iterations,
the fence vector and the command-buffer vector keep their startup size,
and an occupied fence slot i holding fence f points back at iteration f,
which acquired image i, submitted and presented it, and stored that
fence. -/
def LoopInv (cfg : EngineConfig) (recs : List IterRecord) (s : LoopState) : Prop :=
  s.frame = recs.length ∧
  s.fences.length = cfg.image_count ∧
  s.cmd_count = cfg.image_count ∧
  ∀ i f, s.fences.get? i = some (some f) →
    ∃ rf, recs.get? f = some rf ∧
      (∃ sub, rf.input.acquire = AcquireResult.success i sub) ∧
      Action.storeFence i f ∈ rf.actions ∧
      (∃ pg fg, Action.submit i pg fg ∈ rf.actions) ∧
      Action.present i ∈ rf.actions

/-! ### Concrete instances used by counterexamples and witnesses -/

/-- Surface capabilities with the driver maximum bounding the image count
at 2 while the minimum is also 2: the code requests 3 images. -/
def capsBoundedTwo : SurfaceCapabilities :=
  { min_image_count := 2, max_image_count := some 2, supported_composite_alpha := [0] }

/-- The concrete capabilities used to witness `create_swapchain_correct`. -/
def capsWitness : SurfaceCapabilities :=
  { min_image_count := 1, max_image_count := none, supported_composite_alpha := [7] }

/-- The swapchain info produced from `capsWitness`. -/
def swapInfoWitness : SwapchainInfo :=
  { min_image_count := 2, image_format := 5, image_extent := (640, 480),
    image_usage_color_attachment := true, composite_alpha := 7 }

/-- Enumeration used to witness device selection: a compatible integrated
GPU first, then a compatible discrete GPU whose first family lacks
graphics support. -/
def devIntegrated : PhysicalDevice :=
  { supports_swapchain_extension := true
    queue_families := [{ graphics := true, surface_support := true }]
    device_type := PhysicalDeviceType.IntegratedGpu }

/-- The discrete device of the witness enumeration; its compatible queue
family is at index 1. -/
def devDiscrete : PhysicalDevice :=
  { supports_swapchain_extension := true
    queue_families := [{ graphics := false, surface_support := true },
                       { graphics := true, surface_support := true }]
    device_type := PhysicalDeviceType.DiscreteGpu }

/-- Configuration shared by the concrete loop runs: startup extent
800x600, two swapchain images. -/
def cfgTwo : EngineConfig := { startup_extent := (800, 600), image_count := 2 }

/-- An iteration input that acquires image `i` cleanly and flushes
successfully, with the drawable size unchanged. -/
def cleanInput (i : Nat) : FrameInput :=
  { new_dimensions := (800, 600), acquire := AcquireResult.success i false,
    flush := FlushResult.signaled }

/-- An iteration input whose acquisition reports out-of-date. -/
def outOfDateInput : FrameInput :=
  { new_dimensions := (800, 600), acquire := AcquireResult.outOfDate,
    flush := FlushResult.signaled }

/-- An iteration input whose acquisition succeeds suboptimally. -/
def suboptimalInput (i : Nat) : FrameInput :=
  { new_dimensions := (800, 600), acquire := AcquireResult.success i true,
    flush := FlushResult.signaled }

/-- An iteration input whose flush fails with a non-out-of-date error. -/
def flushErrorInput (i : Nat) : FrameInput :=
  { new_dimensions := (800, 600), acquire := AcquireResult.success i false,
    flush := FlushResult.otherError }

/-- The input consumed by the loop iteration following a `Resized` event
to 1024x768. -/
def resizeInput : FrameInput :=
  { new_dimensions := (1024, 768), acquire := AcquireResult.success 0 false,
    flush := FlushResult.signaled }

/-- The two-iteration run in which both iterations acquire image 0. -/
def runTwice : Option (LoopState × List IterRecord) :=
  runLoop cfgTwo [cleanInput 0, cleanInput 0]

/-- Fallback record used only to extract components of computed runs. -/
def fallbackRecord : IterRecord := ⟨initState cfgTwo, outOfDateInput, []⟩

/-- Final state of `runTwice`. -/
def runTwiceFinal : LoopState := (runTwice.getD (initState cfgTwo, [])).1

/-- Records of `runTwice`. -/
def runTwiceRecs : List IterRecord := (runTwice.getD (initState cfgTwo, [])).2

/-- The second iteration record of `runTwice`: it acquires image 0 while
slot 0 holds the fence of the first iteration. -/
def runTwiceSecond : IterRecord := (runTwiceRecs.get? 1).getD fallbackRecord

/-- Result of the loop iteration that follows an out-of-date acquisition
in the initial state. -/
def outOfDateStep : LoopState × List Action :=
  (frameStep cfgTwo (initState cfgTwo) outOfDateInput).getD (initState cfgTwo, [])

/-- Result of the loop iteration with a suboptimal acquisition of image 0
in the initial state. -/
def suboptimalStep : LoopState × List Action :=
  (frameStep cfgTwo (initState cfgTwo) (suboptimalInput 0)).getD (initState cfgTwo, [])

/-- Result of the loop iteration whose flush fails with a logged error. -/
def flushErrorStep : LoopState × List Action :=
  (frameStep cfgTwo (initState cfgTwo) (flushErrorInput 0)).getD (initState cfgTwo, [])

/-- A state whose staleness flag is set but whose resized flag is not. -/
def staleState : LoopState := { initState cfgTwo with recreate_swapchain := true }

/-- The state after a `Resized` event in the initial state. -/
def resizedState : LoopState := handleResized (initState cfgTwo)

/-! ### Claim C7: swapchain creation -/

/-- Claim C7, counterexample: swapchain creation requests
`min_image_count + 1` images without clamping to the driver maximum.  With
a driver reporting minimum 2 and maximum 2, the request is for 3 images,
strictly greater than the bounded maximum, refuting the claim that the
requested count "is also no greater than the driver maximum when the
driver bounds it". -/
theorem create_swapchain_ignores_max_image_count :
    capsBoundedTwo.max_image_count = some 2 ∧
    (create_swapchain (some capsBoundedTwo) [0] (800, 600)).map
      SwapchainInfo.min_image_count = some 3 ∧
    ¬ (3 ≤ 2) := by decide

/-- Claim C7 (amended): swapchain creation picks the first supported
composite-alpha mode and the first supported surface format, sets the
image extent from the current drawable size, sets usage to color
attachment, and requests an image count equal to the driver minimum plus
one, unconditionally (no clamping against the driver maximum); it fails
fatally if surface capabilities are unavailable. -/
theorem create_swapchain_correct
    (caps : SurfaceCapabilities) (surface_formats : List Nat)
    (dimensions : Nat × Nat) (info : SwapchainInfo)
    (h : create_swapchain (some caps) surface_formats dimensions = some info) :
    info.min_image_count = caps.min_image_count + 1 ∧
    caps.supported_composite_alpha.head? = some info.composite_alpha ∧
    surface_formats.head? = some info.image_format ∧
    info.image_extent = dimensions ∧
    info.image_usage_color_attachment = true ∧
    create_swapchain none surface_formats dimensions = none := by
  have hnone : create_swapchain none surface_formats dimensions = none := rfl
  simp only [create_swapchain] at h
  cases hca : caps.supported_composite_alpha.head? with
  | none => rw [hca] at h; cases h
  | some ca =>
    cases hf : surface_formats.head? with
    | none => rw [hca, hf] at h; cases h
    | some fmt =>
      rw [hca, hf] at h
      cases h
      exact ⟨rfl, rfl, rfl, rfl, rfl, hnone⟩

/-- Witness for `create_swapchain_correct` at concrete capabilities. -/
theorem create_swapchain_correct_witness :
    swapInfoWitness.min_image_count = capsWitness.min_image_count + 1 ∧
    capsWitness.supported_composite_alpha.head? = some swapInfoWitness.composite_alpha ∧
    ([5] : List Nat).head? = some swapInfoWitness.image_format ∧
    swapInfoWitness.image_extent = (640, 480) ∧
    swapInfoWitness.image_usage_color_attachment = true ∧
    create_swapchain none [5] (640, 480) = none :=
  create_swapchain_correct capsWitness [5] (640, 480) swapInfoWitness (by decide)

/-! ### Claim C8: the command recorder -/

/-- Claim C8: the Command Recorder produces exactly one primary command
buffer per framebuffer, each marked for multiple submissions, and each
records in this fixed order: begin render pass with the single fixed
dark-gray clear value, bind the graphics pipeline, bind the vertex buffer
at binding 0, draw all of the buffer's vertices as one instance (instance
count 1, first vertex 0, first instance 0), end render pass. -/
theorem create_command_buffers_correct (vbo : List Vertex) (pipeline : Nat)
    (framebuffers : List Nat) :
    (create_command_buffers vbo pipeline framebuffers).length = framebuffers.length ∧
    ∀ k, (create_command_buffers vbo pipeline framebuffers).get? k =
      (framebuffers.get? k).map (fun framebuffer =>
        { usage := CommandBufferUsage.MultipleSubmit
          commands := [Command.beginRenderPass framebuffer [darkGrayClear] true,
                       Command.bindPipelineGraphics pipeline,
                       Command.bindVertexBuffers 0 vbo,
                       Command.draw vbo.length 1 0 0,
                       Command.endRenderPass] }) := by
  refine ⟨by simp [create_command_buffers], fun k => ?_⟩
  simp [create_command_buffers, List.get?_map]

/-! ### Claim C9: device selection -/

/-- A successful `position` returns an index whose element satisfies the
predicate. -/
theorem position_spec {α : Type} (p : α → Bool) :
    ∀ (l : List α) (i : Nat), position p l = some i →
      ∃ a, l.get? i = some a ∧ p a = true := by
  intro l
  induction l with
  | nil => intro i h; cases h
  | cons a l ih =>
    intro i h
    simp only [position] at h
    by_cases hp : p a
    · rw [if_pos hp] at h
      cases h
      exact ⟨a, rfl, hp⟩
    · rw [if_neg hp] at h
      cases hj : position p l with
      | none => rw [hj] at h; cases h
      | some j =>
        rw [hj] at h
        cases h
        obtain ⟨b, hb, hpb⟩ := ih j hj
        exact ⟨b, by simpa using hb, hpb⟩

/-- The function `position` fails exactly when no element satisfies the
predicate. -/
theorem position_none {α : Type} (p : α → Bool) :
    ∀ (l : List α), position p l = none ↔ ∀ a ∈ l, p a = false := by
  intro l
  induction l with
  | nil => simp [position]
  | cons a l ih =>
    simp only [position, List.mem_cons]
    by_cases hp : p a
    · simp [hp]
    · simp only [if_neg hp, Option.map_eq_none']
      constructor
      · intro h b hb
        rcases hb with rfl | hb
        · simpa using hp
        · exact (ih.mp h) b hb
      · intro h
        exact ih.mpr fun b hb => h b (Or.inr hb)

/-- What a candidate produced by the filter chain satisfies: it is the
device itself, it supports the swapchain extension, and the selected queue
family index points at a family with graphics and presentation support. -/
theorem candidate_of_spec (p : PhysicalDevice) (c : PhysicalDevice × Nat)
    (h : candidate_of p = some c) :
    c.1 = p ∧ p.supports_swapchain_extension = true ∧
    ∃ q, p.queue_families.get? c.2 = some q ∧
      q.graphics = true ∧ q.surface_support = true := by
  unfold candidate_of at h
  by_cases he : p.supports_swapchain_extension
  · rw [if_pos he] at h
    cases hi : position queue_family_ok p.queue_families with
    | none => rw [hi] at h; cases h
    | some i =>
      rw [hi] at h
      cases h
      obtain ⟨q, hq, hqok⟩ := position_spec queue_family_ok p.queue_families i hi
      unfold queue_family_ok at hqok
      exact ⟨rfl, he, q, hq, by
        constructor <;> [exact (Bool.and_eq_true _ _ ▸ hqok).1;
                         exact (Bool.and_eq_true _ _ ▸ hqok).2]⟩
  · rw [if_neg he] at h; cases h

/-- The fold step `pickMin` returns one of its two arguments. -/
theorem pickMin_cases (x y : PhysicalDevice × Nat) :
    pickMin x y = x ∨ pickMin x y = y := by
  unfold pickMin
  by_cases h : device_type_rank y.1.device_type < device_type_rank x.1.device_type
  · right; rw [if_pos h]
  · left; rw [if_neg h]

/-- The fold step `pickMin` never increases the rank relative to either
argument. -/
theorem pickMin_le (x y : PhysicalDevice × Nat) :
    device_type_rank (pickMin x y).1.device_type ≤ device_type_rank x.1.device_type ∧
    device_type_rank (pickMin x y).1.device_type ≤ device_type_rank y.1.device_type := by
  unfold pickMin
  by_cases h : device_type_rank y.1.device_type < device_type_rank x.1.device_type
  · rw [if_pos h]; exact ⟨le_of_lt h, le_refl _⟩
  · rw [if_neg h]; exact ⟨le_refl _, le_of_not_lt h⟩

/-- The fold over `pickMin` returns a list member (or the seed). -/
theorem foldl_pickMin_mem :
    ∀ (xs : List (PhysicalDevice × Nat)) (x : PhysicalDevice × Nat),
      xs.foldl pickMin x = x ∨ xs.foldl pickMin x ∈ xs := by
  intro xs
  induction xs with
  | nil => intro x; left; rfl
  | cons y ys ih =>
    intro x
    simp only [List.foldl_cons, List.mem_cons]
    rcases ih (pickMin x y) with h | h
    · rcases pickMin_cases x y with hxy | hxy
      · left; rw [h, hxy]
      · right; left; rw [h, hxy]
    · right; right; exact h

/-- The fold over `pickMin` attains the minimal rank. -/
theorem foldl_pickMin_le :
    ∀ (xs : List (PhysicalDevice × Nat)) (x : PhysicalDevice × Nat),
      device_type_rank (xs.foldl pickMin x).1.device_type ≤
        device_type_rank x.1.device_type ∧
      ∀ y ∈ xs, device_type_rank (xs.foldl pickMin x).1.device_type ≤
        device_type_rank y.1.device_type := by
  intro xs
  induction xs with
  | nil => intro x; exact ⟨le_refl _, by simp⟩
  | cons y ys ih =>
    intro x
    simp only [List.foldl_cons, List.mem_cons]
    have hseed := (ih (pickMin x y)).1
    have hx := (pickMin_le x y).1
    have hy := (pickMin_le x y).2
    refine ⟨le_trans hseed hx, ?_⟩
    intro z hz
    rcases hz with rfl | hz
    · exact le_trans hseed hy
    · exact (ih (pickMin x y)).2 z hz

/-- Claim C9: device selection picks a physical device and a queue-family
index such that the family supports graphics and presentation to the bound
surface; the selected device supports the swapchain extension, is one of
the enumerated devices, and its device-type rank
(discrete 0 < integrated 1 < virtual 2 < CPU 3 < other 4) is minimal among
all compatible candidates; selection is a pure function of the enumeration
(hence deterministic), and it fails (the `.expect` aborts) exactly when no
enumerated device has both the extension and a graphics+present family. -/
theorem create_logical_device_correct (devices : List PhysicalDevice)
    (p : PhysicalDevice) (i : Nat)
    (h : create_logical_device devices = some (p, i)) :
    p ∈ devices ∧
    p.supports_swapchain_extension = true ∧
    (∃ q, p.queue_families.get? i = some q ∧
       q.graphics = true ∧ q.surface_support = true) ∧
    (∀ pd ∈ devices, ∀ c, candidate_of pd = some c →
       device_type_rank p.device_type ≤ device_type_rank c.1.device_type) ∧
    (create_logical_device devices = none ↔
       ∀ pd ∈ devices, candidate_of pd = none) := by
  have hiff : create_logical_device devices = none ↔
      ∀ pd ∈ devices, candidate_of pd = none := by
    unfold create_logical_device
    cases hl : devices.filterMap candidate_of with
    | nil =>
      simp only [min_by_rank]
      constructor
      · intro _ pd hpd
        by_contra hne
        cases hc : candidate_of pd with
        | none => exact hne hc
        | some c =>
          have : c ∈ devices.filterMap candidate_of :=
            List.mem_filterMap.mpr ⟨pd, hpd, hc⟩
          rw [hl] at this
          cases this
      · intro _; trivial
    | cons c cs =>
      simp only [min_by_rank]
      constructor
      · intro hcontr; cases hcontr
      · intro hall
        exfalso
        have : c ∈ devices.filterMap candidate_of := by rw [hl]; exact List.mem_cons_self c cs
        obtain ⟨pd, hpd, hc⟩ := List.mem_filterMap.mp this
        rw [hall pd hpd] at hc
        cases hc
  unfold create_logical_device at h
  cases hl : devices.filterMap candidate_of with
  | nil => rw [hl] at h; cases h
  | cons c cs =>
    rw [hl] at h
    simp only [min_by_rank, Option.some.injEq] at h
    have hmemfm : (p, i) ∈ devices.filterMap candidate_of := by
      rw [hl, ← h]
      rcases foldl_pickMin_mem cs c with hc | hc
      · rw [hc]; exact List.mem_cons_self c cs
      · exact List.mem_cons_of_mem c hc
    obtain ⟨pd, hpd, hcand⟩ := List.mem_filterMap.mp hmemfm
    obtain ⟨hfst, hext, hq⟩ := candidate_of_spec pd _ hcand
    have hfst' : p = pd := hfst
    subst hfst'
    have hple : ∀ z ∈ devices.filterMap candidate_of,
        device_type_rank p.device_type ≤ device_type_rank z.1.device_type := by
      intro z hz
      rw [hl] at hz
      rcases List.mem_cons.mp hz with hzc | hz
      · have hle := (foldl_pickMin_le cs c).1
        rw [h] at hle
        rw [hzc]
        exact hle
      · have hle := (foldl_pickMin_le cs c).2 z hz
        rw [h] at hle
        exact hle
    exact ⟨hpd, hext, hq, fun pd2 hpd2 c2 hc2 =>
      hple c2 (List.mem_filterMap.mpr ⟨pd2, hpd2, hc2⟩), hiff⟩

/-- Witness for `create_logical_device_correct`: on the concrete
enumeration the discrete device and its queue family 1 are selected. -/
theorem create_logical_device_correct_witness :
    devDiscrete ∈ [devIntegrated, devDiscrete] ∧
    devDiscrete.supports_swapchain_extension = true ∧
    (∃ q, devDiscrete.queue_families.get? 1 = some q ∧
       q.graphics = true ∧ q.surface_support = true) ∧
    (∀ pd ∈ [devIntegrated, devDiscrete], ∀ c, candidate_of pd = some c →
       device_type_rank devDiscrete.device_type ≤ device_type_rank c.1.device_type) ∧
    (create_logical_device [devIntegrated, devDiscrete] = none ↔
       ∀ pd ∈ [devIntegrated, devDiscrete], candidate_of pd = none) :=
  create_logical_device_correct [devIntegrated, devDiscrete] devDiscrete 1 (by decide)

/-! ### Basic lemmas about the loop phases -/

theorem markStale_fences (b : Bool) (s : LoopState) : (markStale b s).fences = s.fences := by
  cases b <;> rfl

theorem markStale_frame (b : Bool) (s : LoopState) : (markStale b s).frame = s.frame := by
  cases b <;> rfl

theorem markStale_previous (b : Bool) (s : LoopState) :
    (markStale b s).previous_fence_i = s.previous_fence_i := by
  cases b <;> rfl

theorem markStale_cmd_count (b : Bool) (s : LoopState) :
    (markStale b s).cmd_count = s.cmd_count := by
  cases b <;> rfl

theorem markStale_cmd_pipeline_id (b : Bool) (s : LoopState) :
    (markStale b s).cmd_pipeline_id = s.cmd_pipeline_id := by
  cases b <;> rfl

theorem markStale_cmd_framebuffers_id (b : Bool) (s : LoopState) :
    (markStale b s).cmd_framebuffers_id = s.cmd_framebuffers_id := by
  cases b <;> rfl

theorem markStale_recreate (b : Bool) (s : LoopState) :
    (markStale b s).recreate_swapchain = (s.recreate_swapchain || b) := by
  cases b
  · simp [markStale]
  · simp [markStale]

theorem recreateStep_fences (cfg : EngineConfig) (s : LoopState) (d : Nat × Nat) :
    (recreateStep cfg s d).1.fences = s.fences := by
  unfold recreateStep
  by_cases h1 : s.window_resized
  · rw [if_pos h1]
  · rw [if_neg h1]
    by_cases h2 : s.recreate_swapchain
    · rw [if_pos h2]
    · rw [if_neg h2]

theorem recreateStep_frame (cfg : EngineConfig) (s : LoopState) (d : Nat × Nat) :
    (recreateStep cfg s d).1.frame = s.frame := by
  unfold recreateStep
  by_cases h1 : s.window_resized
  · rw [if_pos h1]
  · rw [if_neg h1]
    by_cases h2 : s.recreate_swapchain
    · rw [if_pos h2]
    · rw [if_neg h2]

theorem recreateStep_previous (cfg : EngineConfig) (s : LoopState) (d : Nat × Nat) :
    (recreateStep cfg s d).1.previous_fence_i = s.previous_fence_i := by
  unfold recreateStep
  by_cases h1 : s.window_resized
  · rw [if_pos h1]
  · rw [if_neg h1]
    by_cases h2 : s.recreate_swapchain
    · rw [if_pos h2]
    · rw [if_neg h2]

theorem recreateStep_cmd_count (cfg : EngineConfig) (s : LoopState) (d : Nat × Nat)
    (h : s.cmd_count = cfg.image_count) :
    (recreateStep cfg s d).1.cmd_count = cfg.image_count := by
  unfold recreateStep
  by_cases h1 : s.window_resized
  · rw [if_pos h1]
  · rw [if_neg h1]
    by_cases h2 : s.recreate_swapchain
    · rw [if_pos h2]; exact h
    · rw [if_neg h2]; exact h

theorem recreateStep_setup (cfg : EngineConfig) (s : LoopState) (d : Nat × Nat) :
    ∀ a ∈ (recreateStep cfg s d).2, isSetupAction a = true := by
  unfold recreateStep
  by_cases h1 : s.window_resized
  · rw [if_pos h1]
    intro a ha
    simp only [List.mem_cons, List.not_mem_nil, or_false] at ha
    rcases ha with rfl | rfl | rfl | rfl <;> rfl
  · rw [if_neg h1]
    by_cases h2 : s.recreate_swapchain
    · rw [if_pos h2]
      intro a ha
      simp only [List.mem_cons, List.not_mem_nil, or_false] at ha
      rcases ha with rfl | rfl <;> rfl
    · rw [if_neg h2]
      intro a ha
      cases ha

theorem recreateStep_stale_cons (cfg : EngineConfig) (s : LoopState) (d : Nat × Nat)
    (h : s.recreate_swapchain = true) :
    ∃ rest, (recreateStep cfg s d).2 = Action.recreateSwapchain d :: rest := by
  unfold recreateStep
  by_cases h1 : s.window_resized
  · rw [if_pos h1]; exact ⟨_, rfl⟩
  · rw [if_neg h1, if_pos h]; exact ⟨_, rfl⟩

theorem submitOutcome_fences (s : LoopState) (i : Nat) (acts : List Action)
    (flush : FlushResult) :
    (submitOutcome s i acts flush).1.fences =
      s.fences.set i (if flush = FlushResult.signaled then some s.frame else none) := by
  cases flush <;> simp [submitOutcome]

theorem submitOutcome_frame (s : LoopState) (i : Nat) (acts : List Action)
    (flush : FlushResult) :
    (submitOutcome s i acts flush).1.frame = s.frame + 1 := by
  cases flush <;> rfl

theorem submitOutcome_previous (s : LoopState) (i : Nat) (acts : List Action)
    (flush : FlushResult) :
    (submitOutcome s i acts flush).1.previous_fence_i = i := by
  cases flush <;> rfl

theorem submitOutcome_cmd_count (s : LoopState) (i : Nat) (acts : List Action)
    (flush : FlushResult) :
    (submitOutcome s i acts flush).1.cmd_count = s.cmd_count := by
  cases flush <;> rfl

theorem submitOutcome_recreate (s : LoopState) (i : Nat) (acts : List Action)
    (flush : FlushResult) :
    (submitOutcome s i acts flush).1.recreate_swapchain =
      (if flush = FlushResult.outOfDate then true else s.recreate_swapchain) := by
  cases flush <;> simp [submitOutcome]

theorem submitOutcome_acts (s : LoopState) (i : Nat) (acts : List Action)
    (flush : FlushResult) :
    (submitOutcome s i acts flush).2 = acts ++
      (match flush with
       | FlushResult.signaled => [Action.storeFence i s.frame]
       | FlushResult.outOfDate => [Action.clearSlot i]
       | FlushResult.otherError => [Action.logError, Action.clearSlot i]) := by
  cases flush <;> rfl

/-- An in-bounds index into a list relates `get?` and `getD`. -/
theorem get?_eq_some_getD {α : Type} (l : List α) (n : Nat) (d : α)
    (h : n < l.length) : l.get? n = some (l.getD n d) := by
  rw [List.getD_eq_getD_get?]
  cases hl : l.get? n with
  | none =>
    rw [List.get?_eq_none] at hl
    omega
  | some a => rfl

/-- Inversion of a successful `submitFrame`: the bounds checks passed and
the result is `submitOutcome` applied to the in-order action trace. -/
theorem submitFrame_inv (s1 : LoopState) (setup : List Action) (i : Nat)
    (flush : FlushResult) (s' : LoopState) (acts : List Action)
    (h : submitFrame s1 setup i flush = some (s', acts)) :
    i < s1.fences.length ∧ s1.previous_fence_i < s1.fences.length ∧
    i < s1.cmd_count ∧
    (s', acts) = submitOutcome s1 i
      (setup ++ Action.acquireImage i ::
        ((match s1.fences.getD i none with
          | some fence => [Action.fenceWait i fence]
          | none => []) ++
         [Action.submit i s1.cmd_pipeline_id s1.cmd_framebuffers_id,
          Action.present i])) flush := by
  unfold submitFrame at h
  by_cases hb : i < s1.fences.length ∧ s1.previous_fence_i < s1.fences.length ∧
      i < s1.cmd_count
  · rw [if_pos hb] at h
    exact ⟨hb.1, hb.2.1, hb.2.2, (Option.some_injective _ h).symm⟩
  · rw [if_neg hb] at h; cases h

/-- A successful `submitFrame` exists whenever the bounds checks pass,
whatever the flush result is. -/
theorem submitFrame_isSome (s1 : LoopState) (setup : List Action) (i : Nat)
    (flush : FlushResult)
    (h1 : i < s1.fences.length)
    (h2 : s1.previous_fence_i < s1.fences.length)
    (hc : i < s1.cmd_count) :
    ∃ s' acts, submitFrame s1 setup i flush = some (s', acts) := by
  unfold submitFrame
  rw [if_pos ⟨h1, h2, hc⟩]
  exact ⟨_, _, rfl⟩

theorem frameStep_otherError (cfg : EngineConfig) (s : LoopState) (inp : FrameInput)
    (hacq : inp.acquire = AcquireResult.otherError) :
    frameStep cfg s inp = none := by
  unfold frameStep afterAcquire
  rw [hacq]

theorem frameStep_outOfDate (cfg : EngineConfig) (s : LoopState) (inp : FrameInput)
    (hacq : inp.acquire = AcquireResult.outOfDate) :
    frameStep cfg s inp =
      some ({ (recreateStep cfg s inp.new_dimensions).1 with
                recreate_swapchain := true
                frame := (recreateStep cfg s inp.new_dimensions).1.frame + 1 },
            (recreateStep cfg s inp.new_dimensions).2) := by
  unfold frameStep afterAcquire
  rw [hacq]

theorem frameStep_success (cfg : EngineConfig) (s : LoopState) (inp : FrameInput)
    (i : Nat) (sub : Bool)
    (hacq : inp.acquire = AcquireResult.success i sub) :
    frameStep cfg s inp =
      submitFrame (markStale sub (recreateStep cfg s inp.new_dimensions).1)
        (recreateStep cfg s inp.new_dimensions).2 i inp.flush := by
  unfold frameStep afterAcquire
  rw [hacq]

/-! ### The run invariant -/

theorem initState_inv (cfg : EngineConfig) : LoopInv cfg [] (initState cfg) := by
  refine ⟨rfl, by simp [initState], rfl, ?_⟩
  intro i f hif
  exfalso
  have hmem : (some f) ∈ List.replicate cfg.image_count (none : Option Nat) :=
    List.get?_mem hif
  cases List.eq_of_mem_replicate hmem

/-- One successful `frameStep` preserves the run invariant, appending the
iteration's record. -/
theorem frameStep_inv (cfg : EngineConfig) (s : LoopState) (inp : FrameInput)
    (s' : LoopState) (acts : List Action) (recs : List IterRecord)
    (hinv : LoopInv cfg recs s)
    (h : frameStep cfg s inp = some (s', acts)) :
    LoopInv cfg (recs ++ [⟨s, inp, acts⟩]) s' := by
  obtain ⟨hfr, hlen, hcmd, hslots⟩ := hinv
  have hkeep : ∀ i f, s.fences.get? i = some (some f) →
      ∃ rf, (recs ++ [(⟨s, inp, acts⟩ : IterRecord)]).get? f = some rf ∧
        (∃ sub, rf.input.acquire = AcquireResult.success i sub) ∧
        Action.storeFence i f ∈ rf.actions ∧
        (∃ pg fg, Action.submit i pg fg ∈ rf.actions) ∧
        Action.present i ∈ rf.actions := by
    intro i f hif
    obtain ⟨rf, hrf, hrest⟩ := hslots i f hif
    have hflt : f < recs.length := by
      by_contra hge
      rw [List.get?_eq_none.mpr (Nat.le_of_not_lt hge)] at hrf
      cases hrf
    refine ⟨rf, ?_, hrest⟩
    rw [List.get?_append hflt]
    exact hrf
  cases hacq : inp.acquire with
  | otherError => rw [frameStep_otherError cfg s inp hacq] at h; cases h
  | outOfDate =>
    rw [frameStep_outOfDate cfg s inp hacq] at h
    injection h with h
    have hs' := congrArg Prod.fst h
    have hacts := congrArg Prod.snd h
    simp only at hs' hacts
    refine ⟨?_, ?_, ?_, ?_⟩
    · rw [← hs']
      show (recreateStep cfg s inp.new_dimensions).1.frame + 1 = _
      rw [recreateStep_frame, hfr]
      simp
    · rw [← hs']
      show (recreateStep cfg s inp.new_dimensions).1.fences.length = _
      rw [recreateStep_fences]
      exact hlen
    · rw [← hs']
      show (recreateStep cfg s inp.new_dimensions).1.cmd_count = _
      exact recreateStep_cmd_count cfg s _ hcmd
    · intro i f hif
      rw [← hs'] at hif
      have hif2 : s.fences.get? i = some (some f) := by
        rw [← recreateStep_fences cfg s inp.new_dimensions]
        exact hif
      exact hkeep i f hif2
  | success i sub =>
    rw [frameStep_success cfg s inp i sub hacq] at h
    obtain ⟨hb1, hb2, hb3, heq⟩ := submitFrame_inv _ _ _ _ _ _ h
    have hs' := congrArg Prod.fst heq
    have hacts := congrArg Prod.snd heq
    simp only at hs' hacts
    have hms : (markStale sub (recreateStep cfg s inp.new_dimensions).1).fences
        = s.fences := by
      rw [markStale_fences, recreateStep_fences]
    have hmsf : (markStale sub (recreateStep cfg s inp.new_dimensions).1).frame
        = s.frame := by
      rw [markStale_frame, recreateStep_frame]
    have hfence' : s'.fences = s.fences.set i
        (if inp.flush = FlushResult.signaled then
          some s.frame
        else none) := by
      rw [hs', submitOutcome_fences, hms, hmsf]
    have hilen : i < s.fences.length := by
      rw [← hms]; exact hb1
    refine ⟨?_, ?_, ?_, ?_⟩
    · rw [hs', submitOutcome_frame, hmsf, hfr]
      simp
    · rw [hfence', List.length_set]
      exact hlen
    · rw [hs', submitOutcome_cmd_count, markStale_cmd_count,
        recreateStep_cmd_count cfg s _ hcmd]
    · intro j f hjf
      rw [hfence'] at hjf
      by_cases hji : j = i
      · subst hji
        rw [List.get?_set_eq_of_lt _ hilen] at hjf
        by_cases hfl : inp.flush = FlushResult.signaled
        · rw [if_pos hfl] at hjf
          have hf : f = s.frame := by
            have := Option.some_injective _ hjf
            exact (Option.some_injective _ this).symm
          subst hf
          refine ⟨⟨s, inp, acts⟩, ?_, ⟨sub, hacq⟩, ?_, ?_, ?_⟩
          · rw [hfr]
            exact List.get?_concat_length recs _
          · rw [hacts, submitOutcome_acts, hfl, hmsf]
            simp
          · refine ⟨(markStale sub (recreateStep cfg s inp.new_dimensions).1).cmd_pipeline_id,
              (markStale sub (recreateStep cfg s inp.new_dimensions).1).cmd_framebuffers_id, ?_⟩
            rw [hacts, submitOutcome_acts]
            simp
          · rw [hacts, submitOutcome_acts]
            simp
        · rw [if_neg hfl] at hjf
          cases Option.some_injective _ hjf
      · rw [List.get?_set_ne _ _ (Ne.symm hji)] at hjf
        exact hkeep j f hjf

/-- The run `runAux` carries the invariant forward and equips every record with
the invariant of its pre-state and a successful step producing its
actions. -/
theorem runAux_inv (cfg : EngineConfig) :
    ∀ (inputs : List FrameInput) (s : LoopState) (acc : List IterRecord)
      (sf : LoopState) (recs : List IterRecord),
      LoopInv cfg acc s →
      (∀ k r, acc.get? k = some r → LoopInv cfg (acc.take k) r.pre ∧
         ∃ s2, frameStep cfg r.pre r.input = some (s2, r.actions)) →
      runAux cfg s acc inputs = some (sf, recs) →
      LoopInv cfg recs sf ∧
      ∀ k r, recs.get? k = some r → LoopInv cfg (recs.take k) r.pre ∧
        ∃ s2, frameStep cfg r.pre r.input = some (s2, r.actions) := by
  intro inputs
  induction inputs with
  | nil =>
    intro s acc sf recs h1 h2 hrun
    unfold runAux at hrun
    injection hrun with hrun
    have hsf := congrArg Prod.fst hrun
    have hrecs := congrArg Prod.snd hrun
    simp only at hsf hrecs
    rw [← hsf, ← hrecs]
    exact ⟨h1, h2⟩
  | cons inp rest ih =>
    intro s acc sf recs h1 h2 hrun
    unfold runAux at hrun
    cases hstep : frameStep cfg s inp with
    | none => rw [hstep] at hrun; cases hrun
    | some pr =>
      obtain ⟨s', acts⟩ := pr
      rw [hstep] at hrun
      refine ih s' (acc ++ [⟨s, inp, acts⟩]) sf recs ?_ ?_ hrun
      · exact frameStep_inv cfg s inp s' acts acc h1 hstep
      · intro k r hk
        by_cases hklt : k < acc.length
        · rw [List.get?_append hklt] at hk
          rw [List.take_append_of_le_length (Nat.le_of_lt hklt)]
          exact h2 k r hk
        · have hkeq : k = acc.length := by
            have hlt : k < (acc ++ [(⟨s, inp, acts⟩ : IterRecord)]).length := by
              by_contra hge
              rw [List.get?_eq_none.mpr (Nat.le_of_not_lt hge)] at hk
              cases hk
            rw [List.length_append, List.length_singleton] at hlt
            omega
          subst hkeq
          rw [List.get?_concat_length] at hk
          have hr : r = ⟨s, inp, acts⟩ := (Option.some_injective _ hk).symm
          subst hr
          constructor
          · rw [List.take_left]
            exact h1
          · exact ⟨s', hstep⟩

/-- The top-level run lemma: a successful `runLoop` yields a final state
satisfying the invariant, and every record's pre-state satisfies the
invariant of the records before it and steps to its successor. -/
theorem runLoop_inv (cfg : EngineConfig) (inputs : List FrameInput)
    (sf : LoopState) (recs : List IterRecord)
    (hrun : runLoop cfg inputs = some (sf, recs)) :
    LoopInv cfg recs sf ∧
    ∀ k r, recs.get? k = some r → LoopInv cfg (recs.take k) r.pre ∧
      ∃ s2, frameStep cfg r.pre r.input = some (s2, r.actions) := by
  refine runAux_inv cfg inputs (initState cfg) [] sf recs (initState_inv cfg) ?_ hrun
  intro k r hk
  cases hk

/-! ### Trace-shape lemmas -/

/-- Any element of the fence-wait sublist is a wait on the given slot. -/
theorem mem_waits {i : Nat} (slot : Option Nat) (a : Action)
    (h : a ∈ (match slot with
              | some fence => [Action.fenceWait i fence]
              | none => ([] : List Action))) :
    ∃ fence, a = Action.fenceWait i fence := by
  cases slot with
  | none => cases h
  | some fence =>
    rcases List.mem_singleton.mp h with rfl
    exact ⟨fence, rfl⟩

/-- A trace of the submission shape waits on the stored fence before any
submit action. -/
theorem waitsBeforeSubmit_shape (setup tail : List Action) (i f pg fg : Nat)
    (hsetup : ∀ a ∈ setup, isSetupAction a = true) :
    waitsBeforeSubmit i f
      ((setup ++ Action.acquireImage i ::
         ([Action.fenceWait i f] ++
          [Action.submit i pg fg, Action.present i])) ++ tail) := by
  refine ⟨setup ++ [Action.acquireImage i],
          Action.submit i pg fg :: Action.present i :: tail, ?_, ?_⟩
  · simp
  · intro a ha j pg2 fg2
    rcases List.mem_append.mp ha with ha | ha
    · have hsa := hsetup a ha
      intro heq
      rw [heq] at hsa
      simp [isSetupAction] at hsa
    · rcases List.mem_singleton.mp ha with rfl
      intro heq
      cases heq

/-- If the staleness flag is set when an iteration starts, the iteration's
trace begins with the swapchain recreation, before any acquisition. -/
theorem frameStep_stale_begins (cfg : EngineConfig) (s : LoopState) (inp : FrameInput)
    (s' : LoopState) (acts : List Action)
    (hst : s.recreate_swapchain = true)
    (h : frameStep cfg s inp = some (s', acts)) :
    acts.head? = some (Action.recreateSwapchain inp.new_dimensions) := by
  obtain ⟨rest, hrest⟩ := recreateStep_stale_cons cfg s inp.new_dimensions hst
  cases hacq : inp.acquire with
  | otherError => rw [frameStep_otherError cfg s inp hacq] at h; cases h
  | outOfDate =>
    rw [frameStep_outOfDate cfg s inp hacq] at h
    injection h with h
    have hacts := congrArg Prod.snd h
    simp only at hacts
    rw [← hacts, hrest]
    rfl
  | success i sub =>
    rw [frameStep_success cfg s inp i sub hacq] at h
    obtain ⟨-, -, -, heq⟩ := submitFrame_inv _ _ _ _ _ _ h
    have hacts := congrArg Prod.snd heq
    simp only at hacts
    rw [hacts, submitOutcome_acts, hrest]
    simp

/-! ### Claim C1: fence safety -/

/-- Claim C1: in any run of the loop, if iteration k acquires image index
i while Frame Fence Slot i is occupied by fence f, then f was stored by a
strictly earlier iteration that acquired the same image i, submitted GPU
work for it and presented it, and iteration k blocks on that fence (the
`fenceWait` action) before it submits any GPU command; hence the earlier
frame's fence has signaled before iteration k issues GPU work touching
image i's resources. -/
theorem fence_safety (cfg : EngineConfig) (inputs : List FrameInput)
    (sf : LoopState) (recs : List IterRecord) (k : Nat) (r : IterRecord)
    (i f : Nat) (sub : Bool)
    (hrun : runLoop cfg inputs = some (sf, recs))
    (hk : recs.get? k = some r)
    (hacq : r.input.acquire = AcquireResult.success i sub)
    (hslot : r.pre.fences.get? i = some (some f)) :
    f < k ∧
    (∃ rf subf, recs.get? f = some rf ∧
       rf.input.acquire = AcquireResult.success i subf ∧
       Action.storeFence i f ∈ rf.actions ∧
       (∃ pg fg, Action.submit i pg fg ∈ rf.actions) ∧
       Action.present i ∈ rf.actions) ∧
    waitsBeforeSubmit i f r.actions := by
  obtain ⟨-, hrecs⟩ := runLoop_inv cfg inputs sf recs hrun
  obtain ⟨⟨hfr, hlen, hcmd, hslots⟩, s2, hstep⟩ := hrecs k r hk
  obtain ⟨rf, hrf, ⟨subf, hsubf⟩, hstore, hsubmit, hpres⟩ := hslots i f hslot
  have hklt : k < recs.length := by
    by_contra hge
    rw [List.get?_eq_none.mpr (Nat.le_of_not_lt hge)] at hk
    cases hk
  have hflt : f < k := by
    by_contra hge
    have hge2 : (recs.take k).length ≤ f := by
      rw [List.length_take]
      omega
    rw [List.get?_eq_none.mpr hge2] at hrf
    cases hrf
  have hrf2 : recs.get? f = some rf := by
    rw [← List.get?_take hflt]
    exact hrf
  refine ⟨hflt, ⟨rf, subf, hrf2, hsubf, hstore, hsubmit, hpres⟩, ?_⟩
  rw [frameStep_success cfg r.pre r.input i sub hacq] at hstep
  obtain ⟨hb1, hb2, hb3, heq⟩ := submitFrame_inv _ _ _ _ _ _ hstep
  have hacts := congrArg Prod.snd heq
  simp only at hacts
  rw [submitOutcome_acts] at hacts
  have hms : (markStale sub (recreateStep cfg r.pre r.input.new_dimensions).1).fences
      = r.pre.fences := by
    rw [markStale_fences, recreateStep_fences]
  have hilen : i < r.pre.fences.length := by
    rw [← hms]
    exact hb1
  have hgetD : (markStale sub (recreateStep cfg r.pre
      r.input.new_dimensions).1).fences.getD i none = some f := by
    rw [hms]
    have hgd := get?_eq_some_getD r.pre.fences i none hilen
    rw [hslot] at hgd
    exact (Option.some_injective _ hgd).symm
  rw [hgetD] at hacts
  rw [hacts]
  exact waitsBeforeSubmit_shape _ _ i f _ _
    (recreateStep_setup cfg r.pre r.input.new_dimensions)

/-- Witness for `fence_safety`: in the concrete two-iteration run both
iterations acquire image 0; the second finds slot 0 occupied by fence 0
and waits on it before submitting. -/
theorem fence_safety_witness :
    0 < 1 ∧
    (∃ rf subf, runTwiceRecs.get? 0 = some rf ∧
       rf.input.acquire = AcquireResult.success 0 subf ∧
       Action.storeFence 0 0 ∈ rf.actions ∧
       (∃ pg fg, Action.submit 0 pg fg ∈ rf.actions) ∧
       Action.present 0 ∈ rf.actions) ∧
    waitsBeforeSubmit 0 0 runTwiceSecond.actions :=
  fence_safety cfgTwo [cleanInput 0, cleanInput 0] runTwiceFinal runTwiceRecs 1
    runTwiceSecond 0 0 false rfl rfl rfl rfl

/-! ### Claim C2: the resize round-trip -/

/-- Claim C2, evaluated at the failing input (startup extent 800x600,
`Resized(1024,768)`, one loop iteration): the local viewport variable is
updated to (1024,768), the pipeline is rebuilt (generation 1), the
command buffers are rebuilt against the new pipeline and the new
framebuffers (both generation 1), and the resized flag ends the iteration
cleared — but the rebuilt pipeline's baked viewport is still (800,600),
because `create_graphics_pipeline` reads the toolset's immutable
`viewport` field while the updated local `viewport` variable is never
passed to it.  The claim's requirement that the rebuilt pipeline's baked
viewport equal the new extent is violated; the viewport write at
window_test.rs line 146 is dead code, so the spec's step-1 protocol is
the evident intent and the code drops it. -/
theorem resize_pipeline_viewport_stale :
    (frameStep cfgTwo resizedState resizeInput).map
        (fun p => (p.1.viewport_extent, p.1.pipeline.id, p.1.cmd_pipeline_id,
                   p.1.cmd_framebuffers_id, p.1.framebuffers_id, p.1.window_resized,
                   p.1.pipeline.baked_viewport))
      = some ((1024, 768), 1, 1, 1, 1, false, (800, 600)) := rfl

/-! ### Claim C3: out-of-date acquisition -/

/-- Claim C3: in any loop iteration whose image acquisition reports
out-of-date, no command buffer is submitted, no present call is made and
no fence slot is written in that iteration; the staleness flag is set,
and the next iteration (whatever its input) begins with a swapchain
recreation before acquiring. -/
theorem out_of_date_acquire_handling (cfg : EngineConfig) (s : LoopState)
    (inp : FrameInput) (s' : LoopState) (acts : List Action)
    (hacq : inp.acquire = AcquireResult.outOfDate)
    (h : frameStep cfg s inp = some (s', acts)) :
    s'.recreate_swapchain = true ∧
    s'.fences = s.fences ∧
    (∀ j pg fg, Action.submit j pg fg ∉ acts) ∧
    (∀ j, Action.present j ∉ acts) ∧
    (∀ j f, Action.storeFence j f ∉ acts) ∧
    (∀ inp2 s2 acts2, frameStep cfg s' inp2 = some (s2, acts2) →
       acts2.head? = some (Action.recreateSwapchain inp2.new_dimensions)) := by
  rw [frameStep_outOfDate cfg s inp hacq] at h
  injection h with h
  have hs' := congrArg Prod.fst h
  have hacts := congrArg Prod.snd h
  simp only at hs' hacts
  have hsetup : ∀ a ∈ acts, isSetupAction a = true := by
    intro a ha
    rw [← hacts] at ha
    exact recreateStep_setup cfg s inp.new_dimensions a ha
  have hrec : s'.recreate_swapchain = true := by
    rw [← hs']
  refine ⟨hrec, ?_, ?_, ?_, ?_, ?_⟩
  · rw [← hs']
    show (recreateStep cfg s inp.new_dimensions).1.fences = s.fences
    exact recreateStep_fences cfg s inp.new_dimensions
  · intro j pg fg hmem
    have := hsetup _ hmem
    simp [isSetupAction] at this
  · intro j hmem
    have := hsetup _ hmem
    simp [isSetupAction] at this
  · intro j f hmem
    have := hsetup _ hmem
    simp [isSetupAction] at this
  · intro inp2 s2 acts2 h2
    exact frameStep_stale_begins cfg s' inp2 s2 acts2 hrec h2

/-- Witness for `out_of_date_acquire_handling` at the initial state. -/
theorem out_of_date_acquire_handling_witness :
    outOfDateStep.1.recreate_swapchain = true ∧
    outOfDateStep.1.fences = (initState cfgTwo).fences ∧
    (∀ j pg fg, Action.submit j pg fg ∉ outOfDateStep.2) ∧
    (∀ j, Action.present j ∉ outOfDateStep.2) ∧
    (∀ j f, Action.storeFence j f ∉ outOfDateStep.2) ∧
    (∀ inp2 s2 acts2,
       frameStep cfgTwo outOfDateStep.1 inp2 = some (s2, acts2) →
       acts2.head? = some (Action.recreateSwapchain inp2.new_dimensions)) :=
  out_of_date_acquire_handling cfgTwo (initState cfgTwo) outOfDateInput
    outOfDateStep.1 outOfDateStep.2 rfl rfl

/-! ### Claim C4: suboptimal acquisition -/

/-- Claim C4: a loop iteration whose acquisition succeeds but reports
suboptimal still submits the acquired image's command buffer and presents
the image in that same iteration; the staleness flag is set at the end of
the iteration, so the next iteration (whatever its input) performs a
swapchain recreation before acquiring. -/
theorem suboptimal_acquire_proceeds (cfg : EngineConfig) (s : LoopState)
    (inp : FrameInput) (s' : LoopState) (acts : List Action) (i : Nat)
    (hacq : inp.acquire = AcquireResult.success i true)
    (h : frameStep cfg s inp = some (s', acts)) :
    (∃ pg fg, Action.submit i pg fg ∈ acts) ∧
    Action.present i ∈ acts ∧
    s'.recreate_swapchain = true ∧
    (∀ inp2 s2 acts2, frameStep cfg s' inp2 = some (s2, acts2) →
       acts2.head? = some (Action.recreateSwapchain inp2.new_dimensions)) := by
  rw [frameStep_success cfg s inp i true hacq] at h
  obtain ⟨-, -, -, heq⟩ := submitFrame_inv _ _ _ _ _ _ h
  have hs' := congrArg Prod.fst heq
  have hacts := congrArg Prod.snd heq
  simp only at hs' hacts
  have hrec : s'.recreate_swapchain = true := by
    rw [hs', submitOutcome_recreate]
    by_cases hfl : inp.flush = FlushResult.outOfDate
    · rw [if_pos hfl]
    · rw [if_neg hfl, markStale_recreate]
      simp
  refine ⟨?_, ?_, hrec, ?_⟩
  · refine ⟨(markStale true (recreateStep cfg s inp.new_dimensions).1).cmd_pipeline_id,
            (markStale true (recreateStep cfg s inp.new_dimensions).1).cmd_framebuffers_id, ?_⟩
    rw [hacts, submitOutcome_acts]
    simp
  · rw [hacts, submitOutcome_acts]
    simp
  · intro inp2 s2 acts2 h2
    exact frameStep_stale_begins cfg s' inp2 s2 acts2 hrec h2

/-- Witness for `suboptimal_acquire_proceeds` at the initial state. -/
theorem suboptimal_acquire_proceeds_witness :
    (∃ pg fg, Action.submit 0 pg fg ∈ suboptimalStep.2) ∧
    Action.present 0 ∈ suboptimalStep.2 ∧
    suboptimalStep.1.recreate_swapchain = true ∧
    (∀ inp2 s2 acts2,
       frameStep cfgTwo suboptimalStep.1 inp2 = some (s2, acts2) →
       acts2.head? = some (Action.recreateSwapchain inp2.new_dimensions)) :=
  suboptimal_acquire_proceeds cfgTwo (initState cfgTwo) (suboptimalInput 0)
    suboptimalStep.1 suboptimalStep.2 0 rfl rfl

/-! ### Claim C5: submission failures -/

/-- Claim C5: in an iteration that reaches the submit/present/flush
chain, an out-of-date flush report sets the staleness flag and leaves the
acquired image's fence slot empty; any other flush failure logs the error
and leaves the slot empty, and no fence is stored; and whatever the flush
result had been, the iteration completes (the step still returns a state
instead of aborting), so the error never propagates past that one
iteration. -/
theorem submission_failure_recovery (cfg : EngineConfig) (s : LoopState)
    (inp : FrameInput) (s' : LoopState) (acts : List Action) (i : Nat) (sub : Bool)
    (hacq : inp.acquire = AcquireResult.success i sub)
    (h : frameStep cfg s inp = some (s', acts)) :
    (inp.flush = FlushResult.outOfDate →
       s'.recreate_swapchain = true ∧ s'.fences.get? i = some none) ∧
    (inp.flush = FlushResult.otherError →
       Action.logError ∈ acts ∧ s'.fences.get? i = some none ∧
       ∀ f, Action.storeFence i f ∉ acts) ∧
    (∀ fl2, ∃ s2 acts2,
       frameStep cfg s { inp with flush := fl2 } = some (s2, acts2)) := by
  rw [frameStep_success cfg s inp i sub hacq] at h
  obtain ⟨hb1, hb2, hb3, heq⟩ := submitFrame_inv _ _ _ _ _ _ h
  have hs' := congrArg Prod.fst heq
  have hacts := congrArg Prod.snd heq
  simp only at hs' hacts
  refine ⟨?_, ?_, ?_⟩
  · intro hfl
    constructor
    · rw [hs', submitOutcome_recreate, if_pos hfl]
    · rw [hs', submitOutcome_fences, hfl]
      rw [if_neg (by simp)]
      exact List.get?_set_eq_of_lt _ hb1
  · intro hfl
    refine ⟨?_, ?_, ?_⟩
    · rw [hacts, submitOutcome_acts, hfl]
      simp
    · rw [hs', submitOutcome_fences, hfl]
      rw [if_neg (by simp)]
      exact List.get?_set_eq_of_lt _ hb1
    · intro f hmem
      rw [hacts, submitOutcome_acts, hfl] at hmem
      rcases List.mem_append.mp hmem with hmem | hmem
      · rcases List.mem_append.mp hmem with hmem | hmem
        · have := recreateStep_setup cfg s inp.new_dimensions _ hmem
          simp [isSetupAction] at this
        · rcases List.mem_cons.mp hmem with heq2 | hmem
          · cases heq2
          · rcases List.mem_append.mp hmem with hmem | hmem
            · obtain ⟨fence, heq2⟩ := mem_waits _ _ hmem
              cases heq2
            · rcases List.mem_cons.mp hmem with heq2 | hmem
              · cases heq2
              · rcases List.mem_singleton.mp hmem with heq2
                cases heq2
      · rcases List.mem_cons.mp hmem with heq2 | hmem
        · cases heq2
        · rcases List.mem_singleton.mp hmem with heq2
          cases heq2
  · intro fl2
    have hacq2 : ({ inp with flush := fl2 } : FrameInput).acquire =
        AcquireResult.success i sub := hacq
    rw [frameStep_success cfg s { inp with flush := fl2 } i sub hacq2]
    exact submitFrame_isSome _ _ _ _ hb1 hb2 hb3

/-- Witness for `submission_failure_recovery` at a concrete iteration
whose flush fails with a logged error. -/
theorem submission_failure_recovery_witness :
    ((flushErrorInput 0).flush = FlushResult.outOfDate →
       flushErrorStep.1.recreate_swapchain = true ∧
       flushErrorStep.1.fences.get? 0 = some none) ∧
    ((flushErrorInput 0).flush = FlushResult.otherError →
       Action.logError ∈ flushErrorStep.2 ∧
       flushErrorStep.1.fences.get? 0 = some none ∧
       ∀ f, Action.storeFence 0 f ∉ flushErrorStep.2) ∧
    (∀ fl2, ∃ s2 acts2,
       frameStep cfgTwo (initState cfgTwo) { flushErrorInput 0 with flush := fl2 } =
         some (s2, acts2)) :=
  submission_failure_recovery cfgTwo (initState cfgTwo) (flushErrorInput 0)
    flushErrorStep.1 flushErrorStep.2 0 false rfl rfl

/-! ### Claim C6: command buffers versus framebuffers -/

/-- Claim C6, counterexample: a staleness-only recreation (out-of-date
acquisition on iteration 0, clean frame on iteration 1) rebuilds the
framebuffers (generation 1) but not the command buffers: iteration 1's
submission executes a command buffer recorded against the retired
generation-0 framebuffers, and the final state still has
`cmd_framebuffers_id = 0` while the live framebuffers are generation 1.
This refutes the claim that the Command Buffer Set is rebuilt whenever
the framebuffers change, including staleness-only recreations. -/
theorem stale_recreation_keeps_old_command_buffers :
    (runLoop cfgTwo [outOfDateInput, cleanInput 0]).map
        (fun p => (p.1.framebuffers_id, p.1.cmd_framebuffers_id,
                   p.2.map IterRecord.actions)) =
      some (1, 0,
        [[],
         [Action.recreateSwapchain (800, 600), Action.createFramebuffers 1,
          Action.acquireImage 0, Action.submit 0 0 0, Action.present 0,
          Action.storeFence 0 1]]) := rfl

/-- Claim C6 (amended): the Command Buffer Set is rebuilt against the new
pipeline and the new framebuffers only when the resized flag is set; a
staleness-only recreation (staleness flag set, resized flag clear)
rebuilds the framebuffers to a fresh generation but leaves the command
buffers unchanged, so subsequent submissions keep executing buffers
recorded against the retired framebuffers. -/
theorem command_buffers_rebuilt_only_on_resize (cfg : EngineConfig)
    (s : LoopState) (d : Nat × Nat) :
    (s.window_resized = true →
       (recreateStep cfg s d).1.cmd_pipeline_id =
         (recreateStep cfg s d).1.pipeline.id ∧
       (recreateStep cfg s d).1.cmd_framebuffers_id =
         (recreateStep cfg s d).1.framebuffers_id) ∧
    (s.window_resized = false → s.recreate_swapchain = true →
       (recreateStep cfg s d).1.framebuffers_id = s.framebuffers_id + 1 ∧
       (recreateStep cfg s d).1.cmd_framebuffers_id = s.cmd_framebuffers_id ∧
       (recreateStep cfg s d).1.cmd_pipeline_id = s.cmd_pipeline_id) := by
  constructor
  · intro h1
    unfold recreateStep
    rw [if_pos h1]
    exact ⟨rfl, rfl⟩
  · intro h1 h2
    unfold recreateStep
    rw [if_neg (by simp [h1]), if_pos h2]
    exact ⟨rfl, rfl, rfl⟩

/-- Witness for `command_buffers_rebuilt_only_on_resize` at a resized
state and at a stale-only state. -/
theorem command_buffers_rebuilt_only_on_resize_witness :
    ((recreateStep cfgTwo resizedState (640, 480)).1.cmd_pipeline_id =
       (recreateStep cfgTwo resizedState (640, 480)).1.pipeline.id ∧
     (recreateStep cfgTwo resizedState (640, 480)).1.cmd_framebuffers_id =
       (recreateStep cfgTwo resizedState (640, 480)).1.framebuffers_id) ∧
    ((recreateStep cfgTwo staleState (640, 480)).1.framebuffers_id =
       staleState.framebuffers_id + 1 ∧
     (recreateStep cfgTwo staleState (640, 480)).1.cmd_framebuffers_id =
       staleState.cmd_framebuffers_id ∧
     (recreateStep cfgTwo staleState (640, 480)).1.cmd_pipeline_id =
       staleState.cmd_pipeline_id) :=
  ⟨(command_buffers_rebuilt_only_on_resize cfgTwo resizedState (640, 480)).1 rfl,
   (command_buffers_rebuilt_only_on_resize cfgTwo staleState (640, 480)).2 rfl rfl⟩

/-! ### Claim C10: vector sizing and index bounds -/

/-- Claim C10: the fence-slot vector and the command-buffer vector are
sized to the startup swapchain image count before the loop runs, keep
exactly that size at the start of every iteration and at the end of any
run (recreations never resize them), and any iteration of a completed run
whose acquisition succeeded used an image index strictly below that
startup image count — the bound that makes its `fences[image_i]` and
`command_buffer[image_i]` indexing non-aborting. -/
theorem fence_vector_fixed (cfg : EngineConfig) (inputs : List FrameInput)
    (sf : LoopState) (recs : List IterRecord)
    (hrun : runLoop cfg inputs = some (sf, recs)) :
    (initState cfg).fences.length = cfg.image_count ∧
    (initState cfg).cmd_count = cfg.image_count ∧
    sf.fences.length = cfg.image_count ∧
    sf.cmd_count = cfg.image_count ∧
    ∀ k r, recs.get? k = some r →
      r.pre.fences.length = cfg.image_count ∧
      r.pre.cmd_count = cfg.image_count ∧
      ∀ i sub, r.input.acquire = AcquireResult.success i sub →
        i < cfg.image_count := by
  obtain ⟨⟨-, hsl, hsc, -⟩, hrecs⟩ := runLoop_inv cfg inputs sf recs hrun
  refine ⟨by simp [initState], rfl, hsl, hsc, ?_⟩
  intro k r hk
  obtain ⟨⟨-, hl, hc, -⟩, s2, hstep⟩ := hrecs k r hk
  refine ⟨hl, hc, ?_⟩
  intro i sub hacq
  rw [frameStep_success cfg r.pre r.input i sub hacq] at hstep
  obtain ⟨hb1, -, -, -⟩ := submitFrame_inv _ _ _ _ _ _ hstep
  rw [markStale_fences, recreateStep_fences, hl] at hb1
  exact hb1

/-- Witness for `fence_vector_fixed` on the concrete two-iteration run. -/
theorem fence_vector_fixed_witness :
    (initState cfgTwo).fences.length = cfgTwo.image_count ∧
    (initState cfgTwo).cmd_count = cfgTwo.image_count ∧
    runTwiceFinal.fences.length = cfgTwo.image_count ∧
    runTwiceFinal.cmd_count = cfgTwo.image_count ∧
    ∀ k r, runTwiceRecs.get? k = some r →
      r.pre.fences.length = cfgTwo.image_count ∧
      r.pre.cmd_count = cfgTwo.image_count ∧
      ∀ i sub, r.input.acquire = AcquireResult.success i sub →
        i < cfgTwo.image_count :=
  fence_vector_fixed cfgTwo [cleanInput 0, cleanInput 0] runTwiceFinal
    runTwiceRecs rfl

end RustEngine
